import Mathlib

/-!
Shallow embedding of the model-training pipeline of this repository
(`config/mihomo/AI/go_parser.py` and `config/mihomo/AI/train_flexible.py`),
together with proofs about the feature-order resolver, the scaler-fitting
step and the artifact writer.

Modelling conventions:
* numbers that Python handles as floating point are modelled as rationals;
  the square root used by the standard scaler and the decimal rendering of
  floats are taken as parameters, since no property proved here depends on
  their values;
* Python strings are Lean `String`s, scanned as `List Char`;
* the two regular expressions of `go_parser.py` are embedded as
  deterministic character-level scanners (their backtracking is degenerate:
  `\d+`, `[^"]+` and `\s*` are each followed by a character that the
  repeated class can never match, so maximal munch is exact).
-/

namespace MihomoTrain

/-! ## Decimal rendering of natural numbers (Python `str` on an `int`) -/

/-- Decimal digits of a natural number, most significant first; the fuel
(first argument) only needs to reach the digit count, and `natDigits`
passes `n + 1`, which always dominates it. -/
def natDigitsAux : Nat → Nat → List Char
  | 0, _ => []
  | fuel + 1, n =>
    if n < 10 then [Nat.digitChar n]
    else natDigitsAux fuel (n / 10) ++ [Nat.digitChar (n % 10)]

/-- Decimal digits of a natural number, most significant first. -/
def natDigits (n : Nat) : List Char := natDigitsAux (n + 1) n

/-- Python `str(i)` / `f"{i}"` for a non-negative integer. -/
def natToStr (n : Nat) : String := String.mk (natDigits n)

/-! ## `go_parser.py`: `GoTransformParser._parse_feature_order` -/

/-- The characters matched by `\s` in the regexes of `go_parser.py`
(ASCII range). -/
def pyIsSpace (c : Char) : Bool :=
  c = ' ' || c = '\t' || c = '\n' || c = '\r' || c = '\x0b' || c = '\x0c'

/-- First literal of the declaration regex:
`func getDefaultFeatureOrder\(\) map\[int\]string \{`. -/
def declLit1 : List Char := "func getDefaultFeatureOrder() map[int]string \x7b".data

/-- Second literal of the declaration regex, after `\s*`:
`return map\[int\]string\{`. -/
def declLit2 : List Char := "return map[int]string\x7b".data

/-- Strip an expected literal from the head of the input. -/
def stripLit : List Char → List Char → Option (List Char)
  | [], s => some s
  | _ :: _, [] => none
  | p :: ps, c :: cs => if p = c then stripLit ps cs else none

/-- Whether the lazy body `(.*?)` may stop here: the tail of the regex is
`\}\s*\}`, which matches iff the current character is `}` and the next
non-whitespace character is `}` again (`\s*` backtracks only over
whitespace, which is never `}`). -/
def canClose : List Char → Bool
  | '\x7d' :: rest => (rest.dropWhile pyIsSpace).head? == some '\x7d'
  | _ => false

/-- The lazy capture `(.*?)` before `\}\s*\}`: the shortest prefix of the
input after which the closing braces match. -/
def findBody : List Char → Option (List Char)
  | [] => none
  | c :: t =>
    if canClose (c :: t) then some []
    else (findBody t).map (fun b => c :: b)

/-- Anchored attempt of the declaration regex at the current position;
on success returns the captured body (group 1). -/
def matchDeclAt (s : List Char) : Option (List Char) := do
  let r1 ← stripLit declLit1 s
  let r2 ← stripLit declLit2 (r1.dropWhile pyIsSpace)
  findBody r2

/-- `re.search` for the declaration regex: try the anchored match at every
position, leftmost success wins. -/
def searchDecl : List Char → Option (List Char)
  | [] => none
  | c :: t =>
    match matchDeclAt (c :: t) with
    | some b => some b
    | none => searchDecl t

/-- Numeric value of a string of decimal digits (Python `int`). -/
def digitsToNat (ds : List Char) : Nat :=
  ds.foldl (fun acc c => acc * 10 + (c.toNat - 48)) 0

/-- Anchored match of the pair regex `(\d+):\s*"([^"]+)"` at the head of
the input; on success returns the pair and the input left after it. -/
def matchPairAt (s : List Char) : Option (Nat × String × List Char) :=
  let ds := s.takeWhile Char.isDigit
  if ds = [] then none
  else
    match s.dropWhile Char.isDigit with
    | ':' :: r1 =>
      match r1.dropWhile pyIsSpace with
      | '"' :: r2 =>
        let nm := r2.takeWhile (fun c => c != '"')
        if nm = [] then none
        else
          match r2.dropWhile (fun c => c != '"') with
          | '"' :: r3 => some (digitsToNat ds, String.mk nm, r3)
          | _ => none
      | _ => none
    | _ => none

/-- `re.findall` for the pair regex: scan left to right, emitting each
non-overlapping match and resuming after it. The fuel starts at the input
length and dominates it throughout, since every step consumes at least one
character. -/
def findPairsAux : Nat → List Char → List (Nat × String)
  | 0, _ => []
  | _ + 1, [] => []
  | k + 1, c :: t =>
    match matchPairAt (c :: t) with
    | some (n, nm, rest) => (n, nm) :: findPairsAux k rest
    | none => findPairsAux k t

/-- All `(index, name)` pairs found in the declaration body. -/
def findPairs (s : List Char) : List (Nat × String) := findPairsAux s.length s

/-- Lookup in `{int(idx): name for idx, name in features}`: Python dict
construction keeps, for each key, the value of its *last* occurrence. -/
def dictGet (pairs : List (Nat × String)) (k : Nat) : Option String :=
  (pairs.reverse.find? (fun p => p.1 == k)).map Prod.snd

/-- `sorted(feature_dict.keys())`: the distinct indices in ascending
order (insertion sort, which agrees with any sort on these keys). -/
def sortedKeys (pairs : List (Nat × String)) : List Nat :=
  List.insertionSort (· ≤ ·) ((pairs.map Prod.fst).dedup)

/-- `[feature_dict[i] for i in sorted(feature_dict.keys())]`. -/
def sorted_features (pairs : List (Nat × String)) : List String :=
  (sortedKeys pairs).filterMap (dictGet pairs)

/-- `GoTransformParser._get_fallback_feature_order`. -/
def fallback_feature_order : List String :=
  ["success", "failure", "connect_time", "latency", "upload_mb", "download_mb",
   "duration_minutes", "last_used_seconds", "is_udp", "is_tcp", "asn_feature",
   "country_feature", "address_feature", "port_feature", "traffic_ratio",
   "traffic_density", "connection_type_feature", "asn_hash", "host_hash",
   "ip_hash", "geoip_hash"]

/-- `GoTransformParser._parse_feature_order`, applied to the content of a
readable Go file. -/
def parse_feature_order (content : String) : List String :=
  match searchDecl content.data with
  | none => fallback_feature_order
  | some body =>
    let features := findPairs body
    if features = [] then fallback_feature_order
    else sorted_features features

/-! ## `train_flexible.py`: static configuration -/

/-- `STD_SCALER_FEATURES` (lines 19-22). -/
def STD_SCALER_FEATURES : List String :=
  ["connect_time", "latency", "upload_mb", "download_mb", "duration_minutes",
   "last_used_seconds", "traffic_density"]

/-- `ROBUST_SCALER_FEATURES` (line 23). -/
def ROBUST_SCALER_FEATURES : List String := ["success", "failure"]

/-! ## Data frames -/

/-- A pandas data frame: a header of column names and a list of rows.
Cells are rationals. -/
structure DataFrame where
  header : List String
  rows : List (List ℚ)
deriving DecidableEq

/-- The column of `f`, reading each row at the first header position of
`f` (missing cells read as `0`; callers guard presence separately). -/
def DataFrame.colOf (d : DataFrame) (f : String) : List ℚ :=
  d.rows.map (fun r => r.getD (d.header.indexOf f) 0)

def DataFrame.hasCol (d : DataFrame) (f : String) : Bool := d.header.contains f

/-- Every row has the width of the header. -/
def DataFrame.WF (d : DataFrame) : Prop := ∀ r ∈ d.rows, r.length = d.header.length

instance (d : DataFrame) : Decidable d.WF :=
  inferInstanceAs (Decidable (∀ r ∈ d.rows, r.length = d.header.length))

/-- `data[names]`: column selection in the given order; `none` models the
`KeyError` on a missing column. -/
def selectCols (d : DataFrame) (names : List String) : Option DataFrame :=
  if names.all (fun n => d.hasCol n) then
    some ⟨names, d.rows.map (fun r => names.map (fun n => r.getD (d.header.indexOf n) 0))⟩
  else none

/-- `data['weight']`: one column; `none` models the `KeyError`. -/
def getCol (d : DataFrame) (f : String) : Option (List ℚ) :=
  if d.hasCol f then some (d.colOf f) else none

/-! ## `load_and_clean_data` and `extract_features_from_preprocessed` -/

inductive LoadResult where
  | fileMissing
  | weightKeyError
  | ok (d : DataFrame)
deriving DecidableEq

/-- `load_and_clean_data` (lines 37-50): a missing file returns `None`;
otherwise rows are filtered to `weight > 0`. `dropna` is the identity here
because rationals have no NaN. A frame without a `weight` column makes
`dropna(subset=['weight'])` raise an uncaught `KeyError`. -/
def load_and_clean_data (file : Option DataFrame) : LoadResult :=
  match file with
  | none => .fileMissing
  | some d =>
    if d.hasCol "weight" then
      .ok ⟨d.header, d.rows.filter (fun r => decide (0 < r.getD (d.header.indexOf "weight") 0))⟩
    else .weightKeyError

/-- The value `extract_features_from_preprocessed` returns, as a Python
value: the function returns either the tuple `(X, y)` or — from the
`except KeyError` branch — the tuple `(None, None)`. It never returns the
bare object `None`. -/
inductive ExtractResult where
  | pyNone
  | pyPair (x : Option DataFrame) (y : Option (List ℚ))
deriving DecidableEq

/-- `extract_features_from_preprocessed` (lines 53-63). -/
def extract_features_from_preprocessed (data : DataFrame) (order : List String) :
    ExtractResult :=
  match selectCols data order, getCol data "weight" with
  | some X, some y => .pyPair (some X) (some y)
  | _, _ => .pyPair none none

/-! ## Scaler fitting -/

/-- Arithmetic mean of a column (numpy `mean`). -/
def colMean (c : List ℚ) : ℚ := c.sum / c.length

/-- Population variance of a column (numpy `var`, `ddof = 0`). -/
def colVar (c : List ℚ) : ℚ := (c.map (fun x => (x - colMean c) ^ 2)).sum / c.length

/-- Insertion into an ascending list. -/
def insertAsc (x : ℚ) : List ℚ → List ℚ
  | [] => [x]
  | y :: t => if x ≤ y then x :: y :: t else y :: insertAsc x t

/-- Ascending sort of a column, as numpy performs before percentiles. -/
def sortAsc (c : List ℚ) : List ℚ := c.foldr insertAsc []

/-- numpy `percentile` with linear interpolation: value at position
`q * (n - 1)` of the sorted column, for `q ∈ [0, 1]`. -/
def quantile (q : ℚ) (c : List ℚ) : ℚ :=
  match sortAsc c with
  | [] => 0
  | s =>
    let pos : ℚ := q * ((s.length : ℚ) - 1)
    let i : Nat := pos.floor.toNat
    let lo := s.getD i 0
    let hi := s.getD (i + 1) lo
    lo + (pos - (i : ℚ)) * (hi - lo)

/-- numpy `median` = 50th percentile. -/
def colMedian (c : List ℚ) : ℚ := quantile (1/2) c

/-- A fitted `StandardScaler`: `mean_` and `scale_`. -/
structure StdFit where
  mean : List ℚ
  scale : List ℚ
deriving DecidableEq

/-- A fitted `RobustScaler`: `center_` and `scale_`. -/
structure RobFit where
  center : List ℚ
  scale : List ℚ
deriving DecidableEq

/-- sklearn `_handle_zeros_in_scale`: a zero scale becomes `1`. -/
def handleZero (s : ℚ) : ℚ := if s = 0 then 1 else s

/-- `StandardScaler.fit` on the given columns. numpy takes the square root
of the variance in floating point; that routine enters the model as the
parameter `sqrtA`. -/
def fitStandard (sqrtA : ℚ → ℚ) (cols : List (List ℚ)) : StdFit :=
  ⟨cols.map colMean, cols.map (fun c => handleZero (sqrtA (colVar c)))⟩

/-- `RobustScaler.fit`: median and interquartile range per column. -/
def fitRobust (cols : List (List ℚ)) : RobFit :=
  ⟨cols.map colMedian,
   cols.map (fun c => handleZero (quantile (3/4) c - quantile (1/4) c))⟩

/-- The columnwise `(x - center) / scale` both scalers apply. -/
def transformCols (centers scales : List ℚ) (cols : List (List ℚ)) : List (List ℚ) :=
  (cols.zip (centers.zip scales)).map (fun p => p.1.map (fun x => (x - p.2.1) / p.2.2))

/-- `X[names] = vals`: cell `(i, j)` becomes entry `i` of the `k`-th new
column when header position `j` holds `names k`; other cells keep their
value. -/
def setCols (d : DataFrame) (names : List String) (vals : List (List ℚ)) : DataFrame :=
  ⟨d.header,
   d.rows.enum.map (fun p =>
     (d.header.zip p.2).map (fun q =>
       match names.indexOf? q.1 with
       | some k => (vals.getD k []).getD p.1 q.2
       | none => q.2))⟩

/-- `apply_feature_transforms` (lines 65-78), value level: the returned
frame is the copy with both scaler subsets overwritten by their transformed
values; the fitted parameters are captured at fit time. -/
def apply_feature_transforms (sqrtA : ℚ → ℚ) (X : DataFrame) :
    DataFrame × StdFit × RobFit :=
  let stdCols := STD_SCALER_FEATURES.map (X.colOf ·)
  let stdFit := fitStandard sqrtA stdCols
  let X1 := setCols X STD_SCALER_FEATURES (transformCols stdFit.mean stdFit.scale stdCols)
  let robCols := ROBUST_SCALER_FEATURES.map (X1.colOf ·)
  let robFit := fitRobust robCols
  let X2 := setCols X1 ROBUST_SCALER_FEATURES (transformCols robFit.center robFit.scale robCols)
  (X2, stdFit, robFit)

/-! ## `apply_feature_transforms`, heap level

The value-level function above cannot express whether line 68's
`X_scaled = X.copy()` shields the caller's frame from the two in-place
column assignments, so the same lines are embedded once more over an
explicit object heap: references are indices, `copy` allocates. -/

abbrev Heap := List DataFrame

/-- `X.copy()`: allocate a fresh object holding the same contents. -/
def Heap.alloc (h : Heap) (d : DataFrame) : Heap × Nat := (h ++ [d], h.length)

/-- `apply_feature_transforms` (lines 65-78) over the heap: both column
assignments write through the reference produced by `X.copy()`. -/
def apply_feature_transforms_heap (sqrtA : ℚ → ℚ) (h : Heap) (x : Nat) :
    Heap × Nat × StdFit × RobFit :=
  let h1x := Heap.alloc h (h.getD x ⟨[], []⟩)
  let h1 := h1x.1
  let xs := h1x.2
  let X0 := h1.getD xs ⟨[], []⟩
  let stdCols := STD_SCALER_FEATURES.map (X0.colOf ·)
  let stdFit := fitStandard sqrtA stdCols
  let h2 := h1.set xs (setCols X0 STD_SCALER_FEATURES (transformCols stdFit.mean stdFit.scale stdCols))
  let X1 := h2.getD xs ⟨[], []⟩
  let robCols := ROBUST_SCALER_FEATURES.map (X1.colOf ·)
  let robFit := fitRobust robCols
  let h3 := h2.set xs (setCols X1 ROBUST_SCALER_FEATURES (transformCols robFit.center robFit.scale robCols))
  (h3, xs, stdFit, robFit)

/-! ## `save_model_and_config`: the artifact writer -/

/-- `std_indices` (line 103): positions of the configured standard features
in the feature order, in configuration order (`list.index` is the first
occurrence). -/
def std_indices (order : List String) : List Nat :=
  STD_SCALER_FEATURES.map (fun f => order.indexOf f)

/-- `robust_indices` (line 104). -/
def robust_indices (order : List String) : List Nat :=
  ROBUST_SCALER_FEATURES.map (fun f => order.indexOf f)

/-- `','.join`: the elements separated by single commas. -/
def joinComma : List String → String
  | [] => ""
  | [a] => a
  | a :: b :: t => a ++ "," ++ joinComma (b :: t)

/-- The `index=name` lines of the `[order]` block (line 101). -/
def order_lines (order : List String) : String :=
  String.join (order.enum.map (fun p => natToStr p.1 ++ "=" ++ p.2 ++ "\n"))

/-- The `[order]` block (line 101). -/
def order_block (order : List String) : String :=
  "[order]\n" ++ order_lines order ++ "[/order]\n"

/-- The lines between the `[definitions]` markers (lines 107-108). The
numeric parameter vectors enter as already-rendered strings: the code
serializes them with `str`, whose floating-point text conversion is not
modelled. -/
def definitions_body (order : List String)
    (stdMean stdScale robCenter robScale : List String) : String :=
  "std_type=StandardScaler\nstd_features=" ++ joinComma ((std_indices order).map natToStr)
  ++ "\nstd_mean=" ++ joinComma stdMean ++ "\nstd_scale=" ++ joinComma stdScale ++ "\n\n"
  ++ "robust_type=RobustScaler\nrobust_features=" ++ joinComma ((robust_indices order).map natToStr)
  ++ "\nrobust_center=" ++ joinComma robCenter ++ "\nrobust_scale=" ++ joinComma robScale ++ "\n"

/-- The `[definitions]` block (lines 106-109). -/
def definitions_block (order : List String)
    (stdMean stdScale robCenter robScale : List String) : String :=
  "[definitions]\n"
  ++ definitions_body order stdMean stdScale robCenter robScale
  ++ "[/definitions]\n"

/-- `transformed_indices` (line 111); Python set membership becomes list
membership. -/
def transformed_indices (order : List String) : List Nat :=
  std_indices order ++ robust_indices order

/-- `untransformed_list` (line 112). -/
def untransformed_list (order : List String) : List String :=
  (order.enum.filter (fun p => decide (p.1 ∉ transformed_indices order))).map
    (fun p => natToStr p.1 ++ ":" ++ p.2)

/-- The `untransformed_features` and `transform` lines (line 116). -/
def untransformed_tail (order : List String) : String :=
  "untransformed_features=" ++ joinComma (untransformed_list order)
  ++ "\ntransform=true\n"

/-- `final_transforms_block` (lines 114-117). -/
def final_transforms_block (order : List String)
    (stdMean stdScale robCenter robScale : List String) : String :=
  "\n\nend of trees\n\n"
  ++ "[transforms]\n" ++ order_block order
  ++ definitions_block order stdMean stdScale robCenter robScale
  ++ untransformed_tail order
  ++ "[/transforms]\n"

/-- The artifact file `save_model_and_config` leaves behind: the text the
training library wrote for the model, with the transforms block appended
(lines 98 and 119-120). -/
def saved_artifact (modelText : String) (order : List String)
    (stdMean stdScale robCenter robScale : List String) : String :=
  modelText ++ final_transforms_block order stdMean stdScale robCenter robScale

/-! ## `main` -/

/-- Observable outcome of one run of `main` (lines 127-155). -/
inductive RunOutcome where
  | initFailure          -- `GoTransformParser` raised; caught by line 134, clean return
  | dataMissing          -- `load_and_clean_data` returned `None`, clean return
  | weightKeyErrorCrash  -- uncaught `KeyError` out of `dropna(subset=['weight'])`
  | noneGuardReturn      -- the guard `if result is None: return` fired
  | attributeErrorCrash  -- uncaught `AttributeError`: `X.copy()` with `X = None`
  | finished (artifact : String)
deriving DecidableEq

/-- The artifact file a run leaves behind, if any. -/
def RunOutcome.artifactOf : RunOutcome → Option String
  | .finished a => some a
  | _ => none

/-- `main` after the feature order is resolved (lines 138-155). Training is
external and opaque: `modelText` is the text `model.save_model` writes, and
`fmt` is Python `str` on the library's fitted floats. -/
def runAfterOrder (order : List String) (dataFile : Option DataFrame)
    (modelText : String) (fmt : ℚ → String) (sqrtA : ℚ → ℚ) : RunOutcome :=
  match load_and_clean_data dataFile with
  | .fileMissing => .dataMissing
  | .weightKeyError => .weightKeyErrorCrash
  | .ok data =>
    match extract_features_from_preprocessed data order with
    | .pyNone => .noneGuardReturn
    | .pyPair none _ => .attributeErrorCrash
    | .pyPair (some X) _ =>
      let r := apply_feature_transforms sqrtA X
      .finished (saved_artifact modelText order
        (r.2.1.mean.map fmt) (r.2.1.scale.map fmt)
        (r.2.2.center.map fmt) (r.2.2.scale.map fmt))

/-- `main` (lines 127-155): `goFile` and `dataFile` hold the contents of
the two input files, `none` when the file is missing or unreadable. -/
def runMain (goFile : Option String) (dataFile : Option DataFrame)
    (modelText : String) (fmt : ℚ → String) (sqrtA : ℚ → ℚ) : RunOutcome :=
  match goFile with
  | none => .initFailure
  | some content => runAfterOrder (parse_feature_order content) dataFile modelText fmt sqrtA

/-! ## Definitions modelled from the spec (the downstream read contract) -/

/-- Split a character list at newlines: the lines of a text file. -/
def splitLines : List Char → List (List Char)
  | [] => [[]]
  | c :: t =>
    if c = '\n' then [] :: splitLines t
    else
      match splitLines t with
      | [] => [[c]]
      | l :: ls => (c :: l) :: ls

/-- Modelled from the spec: the downstream runtime's parse of the `[order]`
block per the section 4.4 grammar — the lines strictly between the
`[order]` and `[/order]` marker lines, each read as `<index>=<name>` with
the name being everything after the first `=`. The consumer itself is the
out-of-scope scoring runtime; only its read contract is specified. -/
def parseOrderBlock (s : String) : List String :=
  ((((splitLines s.data).dropWhile (fun l => decide (l ≠ "[order]".data))).drop 1).takeWhile
      (fun l => decide (l ≠ "[/order]".data))).map
    (fun l => String.mk ((l.dropWhile (fun c => c != '=')).drop 1))

/-- Following the spec's words for the claim about `untransformed_features`:
the `index:name` pairs of the feature order whose *names* are in neither
scaler subset. -/
def untransformedSpec (order : List String) : List String :=
  (order.enum.filter (fun p =>
      decide (p.2 ∉ STD_SCALER_FEATURES ∧ p.2 ∉ ROBUST_SCALER_FEATURES))).map
    (fun p => natToStr p.1 ++ ":" ++ p.2)

/-- Number of positions at which `pat` occurs inside `s` (overlapping
occurrences counted). -/
def occurs (pat : List Char) : List Char → Nat
  | [] => 0
  | c :: s => (if pat <+: (c :: s) then 1 else 0) + occurs pat s

/-! ## Helper lemmas: occurrence counting -/

theorem occurs_cons (pat : List Char) (c : Char) (s : List Char) :
    occurs pat (c :: s) = (if pat <+: (c :: s) then 1 else 0) + occurs pat s := rfl

theorem occurs_append_of_notMem (c : Char) (p : List Char) :
    ∀ (s t : List Char), c ∉ s → occurs (c :: p) (s ++ t) = occurs (c :: p) t
  | [], _, _ => rfl
  | a :: s, t, h => by
    have hne : ¬ (c :: p) <+: (a :: (s ++ t)) := by
      rw [List.cons_prefix_cons]
      rintro ⟨rfl, -⟩
      exact h (List.mem_cons_self _ _)
    rw [List.cons_append, occurs_cons, if_neg hne, Nat.zero_add]
    exact occurs_append_of_notMem c p s t (fun hc => h (List.mem_cons_of_mem _ hc))

theorem occurs_append_self (c : Char) (p t : List Char) (h : c ∉ p) :
    occurs (c :: p) ((c :: p) ++ t) = 1 + occurs (c :: p) t := by
  have hpre : (c :: p) <+: ((c :: p) ++ t) := List.prefix_append _ _
  rw [List.cons_append] at hpre ⊢
  rw [occurs_cons, if_pos hpre, occurs_append_of_notMem c p p t h]

theorem occurs_cons2_ne (a b c : Char) (p l : List Char) (h : b ≠ c) :
    occurs (a :: b :: p) (a :: c :: l) = occurs (a :: b :: p) (c :: l) := by
  have hne : ¬ (a :: b :: p) <+: (a :: c :: l) := by
    rw [List.cons_prefix_cons, List.cons_prefix_cons]
    rintro ⟨-, h2, -⟩
    exact h h2
  rw [occurs_cons, if_neg hne, Nat.zero_add]

/-! ## Helper lemmas: decimal digits -/

theorem digitChar_isDigit : ∀ m < 10, (Nat.digitChar m).isDigit := by decide

theorem natDigitsAux_digit : ∀ (fuel n : Nat), ∀ c ∈ natDigitsAux fuel n, c.isDigit
  | 0, n => by
    intro c hc
    simp [natDigitsAux] at hc
  | fuel + 1, n => by
    intro c hc
    rw [natDigitsAux] at hc
    split at hc
    · next h =>
      rw [List.mem_singleton] at hc
      exact hc ▸ digitChar_isDigit n h
    · next h =>
      rcases List.mem_append.mp hc with h1 | h2
      · exact natDigitsAux_digit fuel (n / 10) c h1
      · rw [List.mem_singleton] at h2
        exact h2 ▸ digitChar_isDigit (n % 10) (Nat.mod_lt _ (by omega))

theorem natDigits_digit (n : Nat) : ∀ c ∈ natDigits n, c.isDigit :=
  natDigitsAux_digit (n + 1) n

theorem natDigits_ne_nil (n : Nat) : natDigits n ≠ [] := by
  rw [natDigits, natDigitsAux]
  split
  · simp
  · simp

theorem notMem_natDigits (n : Nat) (c : Char) (hc : ¬ c.isDigit) : c ∉ natDigits n :=
  fun h => hc (natDigits_digit n c h)

/-! ## Helper lemmas: string data -/

theorem data_foldl_append (l : List String) : ∀ init : String,
    (l.foldl (fun r s => r ++ s) init).data = init.data ++ (l.map String.data).flatten := by
  induction l with
  | nil => intro init; simp
  | cons a t ih =>
    intro init
    rw [List.foldl_cons, ih, String.data_append, List.map_cons, List.flatten_cons,
      List.append_assoc]

theorem data_join (l : List String) :
    (String.join l).data = (l.map String.data).flatten := by
  have h := data_foldl_append l ""
  simpa [String.join] using h

theorem notMem_data_joinComma (c : Char) (hc : c ≠ ',') :
    ∀ l : List String, (∀ p ∈ l, c ∉ p.data) → c ∉ (joinComma l).data
  | [], _ => by simp [joinComma]
  | [a], h => by
    rw [joinComma]
    exact h a (List.mem_singleton.mpr rfl)
  | a :: b :: t, h => by
    rw [joinComma, String.data_append, String.data_append]
    intro hmem
    rcases List.mem_append.mp hmem with h1 | h2
    · rcases List.mem_append.mp h1 with h3 | h4
      · exact h a (List.mem_cons_self _ _) h3
      · exact hc (by simpa using h4)
    · exact notMem_data_joinComma c hc (b :: t)
        (fun p hp => h p (List.mem_cons_of_mem _ hp)) h2

/-! ## Helper lemmas: takeWhile, dropWhile, filterMap -/

theorem takeWhile_append_of_all {α : Type} (p : α → Bool) :
    ∀ (l r : List α), (∀ x ∈ l, p x) → (l ++ r).takeWhile p = l ++ r.takeWhile p
  | [], _, _ => by simp
  | a :: l, r, h => by
    rw [List.cons_append, List.takeWhile_cons, if_pos (h a (List.mem_cons_self _ _)),
      takeWhile_append_of_all p l r (fun x hx => h x (List.mem_cons_of_mem _ hx)),
      List.cons_append]

theorem dropWhile_append_of_all {α : Type} (p : α → Bool) :
    ∀ (l r : List α), (∀ x ∈ l, p x) → (l ++ r).dropWhile p = r.dropWhile p
  | [], _, _ => by simp
  | a :: l, r, h => by
    rw [List.cons_append, List.dropWhile_cons, if_pos (h a (List.mem_cons_self _ _))]
    exact dropWhile_append_of_all p l r (fun x hx => h x (List.mem_cons_of_mem _ hx))

theorem filterMap_getElem?_of_isSome {α β : Type} (f : α → Option β) :
    ∀ (l : List α), (∀ a ∈ l, (f a).isSome) →
      ∀ i : Nat, (l.filterMap f)[i]? = l[i]?.bind f
  | [], _, i => by simp
  | a :: l, h, i => by
    obtain ⟨b, hb⟩ := Option.isSome_iff_exists.mp (h a (List.mem_cons_self _ _))
    rw [List.filterMap_cons_some hb]
    match i with
    | 0 => simp [hb]
    | i + 1 =>
      rw [List.getElem?_cons_succ, List.getElem?_cons_succ]
      exact filterMap_getElem?_of_isSome f l
        (fun x hx => h x (List.mem_cons_of_mem _ hx)) i

theorem filterMap_length_of_isSome {α β : Type} (f : α → Option β) :
    ∀ (l : List α), (∀ a ∈ l, (f a).isSome) → (l.filterMap f).length = l.length
  | [], _ => rfl
  | a :: l, h => by
    obtain ⟨b, hb⟩ := Option.isSome_iff_exists.mp (h a (List.mem_cons_self _ _))
    rw [List.filterMap_cons_some hb, List.length_cons, List.length_cons,
      filterMap_length_of_isSome f l (fun x hx => h x (List.mem_cons_of_mem _ hx))]

/-! ## Helper lemmas: line splitting -/

theorem splitLines_newline (b : List Char) :
    splitLines ('\n' :: b) = [] :: splitLines b := by
  rw [splitLines, if_pos rfl]

theorem splitLines_ne_nil : ∀ s : List Char, splitLines s ≠ []
  | [] => by rw [splitLines]; simp
  | c :: t => by
    rw [splitLines]
    split
    · simp
    · match h : splitLines t with
      | [] => simp
      | l :: ls => simp

theorem splitLines_append_newline :
    ∀ (a b : List Char), '\n' ∉ a → splitLines (a ++ '\n' :: b) = a :: splitLines b
  | [], b, _ => by rw [List.nil_append, splitLines_newline]
  | c :: a, b, h => by
    have hc : ¬ c = '\n' := fun e => h (e ▸ List.mem_cons_self _ _)
    rw [List.cons_append, splitLines, if_neg hc,
      splitLines_append_newline a b (fun hm => h (List.mem_cons_of_mem _ hm))]

/-! ## Helper lemmas: the feature dictionary -/

theorem find?_fst_append (k : Nat) (nm : String) (r : List (Nat × String)) :
    ∀ m : List (Nat × String), k ∉ m.map Prod.fst →
      (m ++ (k, nm) :: r).find? (fun p => p.1 == k) = some (k, nm)
  | [], _ => by simp
  | a :: t, h => by
    rw [List.map_cons] at h
    have h1 : ¬ k = a.1 := fun e => h (e ▸ List.mem_cons_self _ _)
    have h2 : k ∉ t.map Prod.fst := fun hm => h (List.mem_cons_of_mem _ hm)
    rw [List.cons_append, List.find?_cons_of_neg, find?_fst_append k nm r t h2]
    simp
    exact fun e => h1 e.symm

theorem dictGet_last (l1 l2 : List (Nat × String)) (k : Nat) (nm : String)
    (h : k ∉ l2.map Prod.fst) :
    dictGet (l1 ++ (k, nm) :: l2) k = some nm := by
  unfold dictGet
  have hrev : (l1 ++ (k, nm) :: l2).reverse = l2.reverse ++ (k, nm) :: l1.reverse := by
    rw [List.reverse_append, List.reverse_cons, List.append_assoc, List.singleton_append]
  have hmem : k ∉ l2.reverse.map Prod.fst := by
    rw [List.map_reverse, List.mem_reverse]
    exact h
  rw [hrev, find?_fst_append k nm l1.reverse l2.reverse hmem]
  rfl

theorem dictGet_of_nodup (pairs : List (Nat × String)) (k : Nat) (nm : String)
    (hnd : (pairs.map Prod.fst).Nodup) (hmem : (k, nm) ∈ pairs) :
    dictGet pairs k = some nm := by
  obtain ⟨l1, l2, rfl⟩ := List.append_of_mem hmem
  apply dictGet_last
  rw [List.map_append, List.map_cons] at hnd
  have h2 := List.Nodup.of_append_right hnd
  exact (List.nodup_cons.mp h2).1

theorem dictGet_isSome_of_mem_fst (pairs : List (Nat × String)) (k : Nat)
    (h : k ∈ pairs.map Prod.fst) : (dictGet pairs k).isSome := by
  unfold dictGet
  obtain ⟨p, hp, he⟩ := List.mem_map.mp h
  have hfind : (List.find? (fun p => p.1 == k) pairs.reverse).isSome := by
    rw [List.find?_isSome]
    exact ⟨p, List.mem_reverse.mpr hp, by simp [he]⟩
  obtain ⟨q, hq⟩ := Option.isSome_iff_exists.mp hfind
  rw [hq]
  rfl

/-! ## Helper lemmas: sorted keys -/

theorem sortedKeys_sorted (pairs : List (Nat × String)) :
    List.Sorted (· ≤ ·) (sortedKeys pairs) :=
  List.sorted_insertionSort _ _

theorem sortedKeys_perm (pairs : List (Nat × String)) :
    List.Perm (sortedKeys pairs) ((pairs.map Prod.fst).dedup) :=
  List.perm_insertionSort _ _

theorem sortedKeys_eq_range (pairs : List (Nat × String)) (N : Nat)
    (hperm : List.Perm (pairs.map Prod.fst) (List.range N)) :
    sortedKeys pairs = List.range N := by
  have hnd : (pairs.map Prod.fst).Nodup := hperm.nodup_iff.mpr (List.nodup_range N)
  have hded : (pairs.map Prod.fst).dedup = pairs.map Prod.fst :=
    List.dedup_eq_self.mpr hnd
  apply List.eq_of_perm_of_sorted ((sortedKeys_perm pairs).trans ?_)
    (sortedKeys_sorted pairs) ?_
  · rw [hded]
    exact hperm
  · exact List.pairwise_le_range N

theorem sorted_getElem?_filter_lt :
    ∀ l : List Nat, List.Sorted (· ≤ ·) l → l.Nodup → ∀ k ∈ l,
      l[(l.filter (fun j => decide (j < k))).length]? = some k
  | [], _, _, k, hk => absurd hk (List.not_mem_nil k)
  | a :: t, hs, hnd, k, hk => by
    rw [List.sorted_cons] at hs
    rw [List.nodup_cons] at hnd
    by_cases hak : a = k
    · subst hak
      have hfil : (a :: t).filter (fun j => decide (j < a)) = [] := by
        rw [List.filter_eq_nil_iff]
        intro x hx
        rcases List.mem_cons.mp hx with rfl | hxt
        · simp
        · have hax := hs.1 x hxt
          simp
          omega
      rw [hfil]
      simp
    · have hkt : k ∈ t := (List.mem_cons.mp hk).resolve_left (fun e => hak e.symm)
      have halt : a < k := lt_of_le_of_ne (hs.1 k hkt) hak
      have hfil : (a :: t).filter (fun j => decide (j < k))
          = a :: t.filter (fun j => decide (j < k)) := by
        rw [List.filter_cons_of_pos]
        simp [halt]
      rw [hfil, List.length_cons, List.getElem?_cons_succ]
      exact sorted_getElem?_filter_lt t hs.2 hnd.2 k hkt

/-- Shared helper: an absent declaration, or one yielding zero pairs,
makes the resolver return the fallback order. -/
theorem parse_eq_fallback (content : String)
    (h : searchDecl content.data = none ∨
      ∃ body, searchDecl content.data = some body ∧ findPairs body = []) :
    parse_feature_order content = fallback_feature_order := by
  unfold parse_feature_order
  rcases h with h | ⟨body, h1, h2⟩
  · rw [h]
  · rw [h1]
    simp [h2]

/-! ## Claim C8 -/

/-- **C8**: if the source document is readable but contains no matching
`getDefaultFeatureOrder` declaration (or the declaration yields zero
pairs), the resolver returns exactly the fixed 21-element fallback list, in
the stated order. -/
theorem C8_fallback_exact (content : String)
    (h : searchDecl content.data = none ∨
      ∃ body, searchDecl content.data = some body ∧ findPairs body = []) :
    parse_feature_order content =
      ["success", "failure", "connect_time", "latency", "upload_mb", "download_mb",
       "duration_minutes", "last_used_seconds", "is_udp", "is_tcp", "asn_feature",
       "country_feature", "address_feature", "port_feature", "traffic_ratio",
       "traffic_density", "connection_type_feature", "asn_hash", "host_hash",
       "ip_hash", "geoip_hash"] := by
  rw [parse_eq_fallback content h]
  rfl

/-- Witness for C8: a readable file with no declaration resolves to the
fallback list. -/
theorem C8_fallback_exact_witness :
    (searchDecl "package main".data = none ∨
      ∃ body, searchDecl "package main".data = some body ∧ findPairs body = []) ∧
    parse_feature_order "package main" =
      ["success", "failure", "connect_time", "latency", "upload_mb", "download_mb",
       "duration_minutes", "last_used_seconds", "is_udp", "is_tcp", "asn_feature",
       "country_feature", "address_feature", "port_feature", "traffic_ratio",
       "traffic_density", "connection_type_feature", "asn_hash", "host_hash",
       "ip_hash", "geoip_hash"] :=
  ⟨Or.inl (by decide), C8_fallback_exact "package main" (Or.inl (by decide))⟩

/-! ## Claim C5 -/

/-- **C5**: when the declaration's pairs carry indices forming a contiguous
`0..N-1` permutation, the resolver returns a feature order of length `N`
whose `i`-th element is the name paired with index `i` — regardless of the
order in which the pairs appear in the text (only the multiset of pairs
enters the hypotheses). -/
theorem C5_contiguous_permutation (content : String) (body : List Char) (N : Nat)
    (hs : searchDecl content.data = some body)
    (hperm : List.Perm ((findPairs body).map Prod.fst) (List.range N))
    (hN : 0 < N) :
    (parse_feature_order content).length = N ∧
    ∀ i nm, (i, nm) ∈ findPairs body → (parse_feature_order content)[i]? = some nm := by
  have hne : findPairs body ≠ [] := by
    intro e
    rw [e] at hperm
    have := hperm.length_eq
    simp at this
    omega
  have hpar : parse_feature_order content = sorted_features (findPairs body) := by
    unfold parse_feature_order
    rw [hs]
    simp only [if_neg hne]
  have hnd : ((findPairs body).map Prod.fst).Nodup :=
    hperm.nodup_iff.mpr (List.nodup_range N)
  have hkeys : sortedKeys (findPairs body) = List.range N :=
    sortedKeys_eq_range _ N hperm
  have hall : ∀ k ∈ List.range N, (dictGet (findPairs body) k).isSome := by
    intro k hkr
    exact dictGet_isSome_of_mem_fst _ k (hperm.mem_iff.mpr hkr)
  refine ⟨?_, ?_⟩
  · rw [hpar]
    unfold sorted_features
    rw [hkeys, filterMap_length_of_isSome _ _ hall, List.length_range]
  · intro i nm hmem
    have hi : i < N := by
      have : i ∈ List.range N := hperm.mem_iff.mp (List.mem_map_of_mem Prod.fst hmem)
      exact List.mem_range.mp this
    rw [hpar]
    unfold sorted_features
    rw [hkeys, filterMap_getElem?_of_isSome _ _ hall i, List.getElem?_range hi,
      Option.some_bind]
    exact dictGet_of_nodup _ i nm hnd hmem

/-- Witness for C5: a declaration listing index 1 before index 0 still
resolves to the index-ascending order. -/
theorem C5_contiguous_permutation_witness :
    (searchDecl "func getDefaultFeatureOrder() map[int]string \x7b return map[int]string\x7b1: \"b\", 0: \"a\"\x7d \x7d".data
        = some "1: \"b\", 0: \"a\"".data) ∧
    List.Perm ((findPairs "1: \"b\", 0: \"a\"".data).map Prod.fst) (List.range 2) ∧
    (parse_feature_order "func getDefaultFeatureOrder() map[int]string \x7b return map[int]string\x7b1: \"b\", 0: \"a\"\x7d \x7d").length = 2 ∧
    (parse_feature_order "func getDefaultFeatureOrder() map[int]string \x7b return map[int]string\x7b1: \"b\", 0: \"a\"\x7d \x7d")[0]? = some "a" ∧
    (parse_feature_order "func getDefaultFeatureOrder() map[int]string \x7b return map[int]string\x7b1: \"b\", 0: \"a\"\x7d \x7d")[1]? = some "b" :=
  ⟨by decide, by decide,
    (C5_contiguous_permutation "func getDefaultFeatureOrder() map[int]string \x7b return map[int]string\x7b1: \"b\", 0: \"a\"\x7d \x7d" "1: \"b\", 0: \"a\"".data 2 (by decide) (by decide) (by decide)).1,
    (C5_contiguous_permutation "func getDefaultFeatureOrder() map[int]string \x7b return map[int]string\x7b1: \"b\", 0: \"a\"\x7d \x7d" "1: \"b\", 0: \"a\"".data 2 (by decide) (by decide) (by decide)).2 0 "a" (by decide),
    (C5_contiguous_permutation "func getDefaultFeatureOrder() map[int]string \x7b return map[int]string\x7b1: \"b\", 0: \"a\"\x7d \x7d" "1: \"b\", 0: \"a\"".data 2 (by decide) (by decide) (by decide)).2 1 "b" (by decide)⟩

/-! ## Claim C9 -/

/-- **C9**: with at least one extracted pair the resolver never falls back;
a duplicated index resolves to its last occurrence in the text, index gaps
collapse (the result length is the number of distinct indices), and each
name sits at the rank of its index among the distinct indices. -/
theorem C9_gaps_and_duplicates (content : String) (body : List Char)
    (l1 l2 : List (Nat × String)) (k : Nat) (nm : String)
    (hs : searchDecl content.data = some body)
    (hsplit : findPairs body = l1 ++ (k, nm) :: l2)
    (hlast : k ∉ l2.map Prod.fst) :
    parse_feature_order content = sorted_features (findPairs body) ∧
    (parse_feature_order content).length = ((findPairs body).map Prod.fst).dedup.length ∧
    (parse_feature_order content)[(((findPairs body).map Prod.fst).dedup.filter
        (fun j => decide (j < k))).length]? = some nm := by
  have hne : findPairs body ≠ [] := by
    rw [hsplit]
    simp
  have hpar : parse_feature_order content = sorted_features (findPairs body) := by
    unfold parse_feature_order
    rw [hs]
    simp only [if_neg hne]
  have hall : ∀ j ∈ sortedKeys (findPairs body), (dictGet (findPairs body) j).isSome := by
    intro j hj
    apply dictGet_isSome_of_mem_fst
    have := (sortedKeys_perm (findPairs body)).mem_iff.mp hj
    exact (List.mem_dedup).mp this
  have hksorted : (sortedKeys (findPairs body)).Nodup :=
    (sortedKeys_perm (findPairs body)).nodup_iff.mpr (List.nodup_dedup _)
  have hkp : (k, nm) ∈ findPairs body := by
    rw [hsplit]
    exact List.mem_append_right _ (List.mem_cons_self _ _)
  have hkmem : k ∈ sortedKeys (findPairs body) := by
    apply (sortedKeys_perm (findPairs body)).mem_iff.mpr
    exact List.mem_dedup.mpr (List.mem_map_of_mem Prod.fst hkp)
  have hlen : (((findPairs body).map Prod.fst).dedup.filter
        (fun j => decide (j < k))).length
      = ((sortedKeys (findPairs body)).filter (fun j => decide (j < k))).length :=
    (((sortedKeys_perm (findPairs body)).filter _).length_eq).symm
  refine ⟨hpar, ?_, ?_⟩
  · rw [hpar]
    unfold sorted_features
    rw [filterMap_length_of_isSome _ _ hall]
    exact (sortedKeys_perm (findPairs body)).length_eq
  · rw [hpar]
    unfold sorted_features
    rw [filterMap_getElem?_of_isSome _ _ hall, hlen,
      sorted_getElem?_filter_lt _ (sortedKeys_sorted _) hksorted k hkmem,
      Option.some_bind, hsplit]
    exact dictGet_last l1 l2 k nm hlast

/-- Witness for C9: pairs `0:"a", 5:"b", 0:"c"` resolve to `["c", "b"]` —
the duplicate index 0 takes its last value and the gap up to 5 collapses. -/
theorem C9_gaps_and_duplicates_witness :
    (searchDecl "func getDefaultFeatureOrder() map[int]string \x7b return map[int]string\x7b0: \"a\", 5: \"b\", 0: \"c\"\x7d \x7d".data
        = some "0: \"a\", 5: \"b\", 0: \"c\"".data) ∧
    findPairs "0: \"a\", 5: \"b\", 0: \"c\"".data
      = [(0, "a"), (5, "b")] ++ (0, "c") :: [] ∧
    (parse_feature_order "func getDefaultFeatureOrder() map[int]string \x7b return map[int]string\x7b0: \"a\", 5: \"b\", 0: \"c\"\x7d \x7d").length = 2 ∧
    (parse_feature_order "func getDefaultFeatureOrder() map[int]string \x7b return map[int]string\x7b0: \"a\", 5: \"b\", 0: \"c\"\x7d \x7d")[0]? = some "c" :=
  ⟨by decide, by decide,
    by
      have h := C9_gaps_and_duplicates "func getDefaultFeatureOrder() map[int]string \x7b return map[int]string\x7b0: \"a\", 5: \"b\", 0: \"c\"\x7d \x7d" "0: \"a\", 5: \"b\", 0: \"c\"".data
        [(0, "a"), (5, "b")] [] 0 "c" (by decide) (by decide) (by decide)
      rw [h.2.1]
      decide,
    by
      have h := C9_gaps_and_duplicates "func getDefaultFeatureOrder() map[int]string \x7b return map[int]string\x7b0: \"a\", 5: \"b\", 0: \"c\"\x7d \x7d" "0: \"a\", 5: \"b\", 0: \"c\"".data
        [(0, "a"), (5, "b")] [] 0 "c" (by decide) (by decide) (by decide)
      have h2 := h.2.2
      revert h2
      decide⟩

/-! ## Claim C4 -/

/-- **C4**: a missing or unreadable feature-order source file aborts the
whole run with no artifact (never silently defaulted), whereas a readable
source whose declaration is absent or yields zero pairs resolves to the
fallback order and the run continues from there. -/
theorem C4_source_missing_vs_malformed (content : String) (d : Option DataFrame)
    (m : String) (fmt : ℚ → String) (sqrtA : ℚ → ℚ)
    (h : searchDecl content.data = none ∨
      ∃ body, searchDecl content.data = some body ∧ findPairs body = []) :
    runMain none d m fmt sqrtA = RunOutcome.initFailure ∧
    (runMain none d m fmt sqrtA).artifactOf = none ∧
    runMain (some content) d m fmt sqrtA
      = runAfterOrder fallback_feature_order d m fmt sqrtA := by
  refine ⟨rfl, rfl, ?_⟩
  show runAfterOrder (parse_feature_order content) d m fmt sqrtA = _
  rw [parse_eq_fallback content h]

/-- Witness for C4 at a readable file with no declaration and a one-row
data file. -/
theorem C4_source_missing_vs_malformed_witness :
    (searchDecl "// no order here".data = none ∨
      ∃ body, searchDecl "// no order here".data = some body ∧ findPairs body = []) ∧
    (runMain none (some ⟨["weight"], [[1]]⟩) "" (fun _ => "") (fun q => q)
        = RunOutcome.initFailure ∧
      (runMain none (some ⟨["weight"], [[1]]⟩) "" (fun _ => "") (fun q => q)).artifactOf
        = none ∧
      runMain (some "// no order here") (some ⟨["weight"], [[1]]⟩) "" (fun _ => "")
          (fun q => q)
        = runAfterOrder fallback_feature_order (some ⟨["weight"], [[1]]⟩) "" (fun _ => "")
          (fun q => q)) :=
  ⟨Or.inl (by decide),
    C4_source_missing_vs_malformed "// no order here" (some ⟨["weight"], [[1]]⟩) ""
      (fun _ => "") (fun q => q) (Or.inl (by decide))⟩

/-! ## Claim C3 -/

/-- **C3** (documents the code bug): with the `latency` column missing from
the data, the run does not abort cleanly with a missing-column failure
before training — `extract_features_from_preprocessed` catches the
`KeyError` and returns the tuple `(None, None)`, the guard
`if result is None` in `main` never fires because a tuple is not `None`,
and the run instead crashes inside `apply_feature_transforms` with an
uncaught `AttributeError` (`X.copy()` on `None`). No artifact is
produced. -/
theorem C3_missing_column_attribute_error :
    runMain (some "x")
        (some ⟨["success", "failure", "connect_time", "weight"], [[1, 2, 3, 1]]⟩)
        "" (fun _ => "") (fun q => q)
      = RunOutcome.attributeErrorCrash ∧
    (runMain (some "x")
        (some ⟨["success", "failure", "connect_time", "weight"], [[1, 2, 3, 1]]⟩)
        "" (fun _ => "") (fun q => q)).artifactOf = none ∧
    extract_features_from_preprocessed
        ⟨["success", "failure", "connect_time", "weight"], [[1, 2, 3, 1]]⟩
        fallback_feature_order
      = ExtractResult.pyPair none none := by
  refine ⟨?_, ?_, ?_⟩ <;> decide

/-! ## Claim C6 -/

/-- Shared helper: with pairwise-distinct names, a position of the feature
order is the `list.index` of one of `feats` exactly when the name at that
position belongs to `feats`. -/
theorem mem_index_map_iff (order feats : List String) (i : Nat) (nm : String)
    (hnd : order.Nodup) (hin : ∀ f ∈ feats, f ∈ order)
    (hget : order[i]? = some nm) :
    i ∈ feats.map (fun f => order.indexOf f) ↔ nm ∈ feats := by
  obtain ⟨hi, hgi⟩ := List.getElem?_eq_some_iff.mp hget
  constructor
  · intro h
    obtain ⟨f, hf, he⟩ := List.mem_map.mp h
    have hlt : order.indexOf f < order.length := List.indexOf_lt_length.mpr (hin f hf)
    have hgf : order[order.indexOf f] = f := List.getElem_indexOf hlt
    have hnf : nm = f := by
      rw [← hgi, ← hgf]
      congr 1
      exact he.symm
    exact hnf ▸ hf
  · intro h
    have hlt : order.indexOf nm < order.length := List.indexOf_lt_length.mpr (hin nm h)
    have hgn : order[order.indexOf nm] = nm := List.getElem_indexOf hlt
    have hij : i = order.indexOf nm :=
      (@List.Nodup.getElem_inj_iff _ order hnd i hi (order.indexOf nm) hlt).mp
        (hgi.trans hgn.symm)
    exact hij ▸ List.mem_map_of_mem (fun f => order.indexOf f) h

set_option maxRecDepth 10000 in
/-- **C6** counterexample: the claim fails on a resolved feature order that
repeats a scaler feature name. The order below, resolved from an actual
declaration, carries `latency` both at index 3 and at index 21; the writer
keys the untransformed set on first-occurrence indices, so `21:latency` is
listed even though `latency` belongs to the standard scaler subset. -/
theorem C6_counterexample :
    parse_feature_order "func getDefaultFeatureOrder() map[int]string \x7b return map[int]string\x7b0: \"success\", 1: \"failure\", 2: \"connect_time\", 3: \"latency\", 4: \"upload_mb\", 5: \"download_mb\", 6: \"duration_minutes\", 7: \"last_used_seconds\", 8: \"is_udp\", 9: \"is_tcp\", 10: \"asn_feature\", 11: \"country_feature\", 12: \"address_feature\", 13: \"port_feature\", 14: \"traffic_ratio\", 15: \"traffic_density\", 16: \"connection_type_feature\", 17: \"asn_hash\", 18: \"host_hash\", 19: \"ip_hash\", 20: \"geoip_hash\", 21: \"latency\"\x7d \x7d"
      = fallback_feature_order ++ ["latency"] ∧
    "21:latency" ∈ untransformed_list (fallback_feature_order ++ ["latency"]) ∧
    "latency" ∈ STD_SCALER_FEATURES ∧
    untransformed_list (fallback_feature_order ++ ["latency"])
      ≠ untransformedSpec (fallback_feature_order ++ ["latency"]) := by
  refine ⟨by decide, by decide, by decide, by decide⟩

/-- **C6** amended: restricted to feature orders with pairwise-distinct
names (containing every configured scaler feature), the
`untransformed_features` entries are exactly the `index:name` pairs whose
names are in neither scaler subset, ascending, without duplication or
omission. -/
theorem C6_amended (order : List String) (hnd : order.Nodup)
    (hstd : ∀ f ∈ STD_SCALER_FEATURES, f ∈ order)
    (hrob : ∀ f ∈ ROBUST_SCALER_FEATURES, f ∈ order) :
    untransformed_list order = untransformedSpec order := by
  unfold untransformed_list untransformedSpec
  congr 1
  apply List.filter_congr
  intro p hp
  obtain ⟨i, nm⟩ := p
  have hget : order[i]? = some nm := List.mk_mem_enum_iff_getElem?.mp hp
  rw [decide_eq_decide]
  have h1 := mem_index_map_iff order STD_SCALER_FEATURES i nm hnd hstd hget
  have h2 := mem_index_map_iff order ROBUST_SCALER_FEATURES i nm hnd hrob hget
  unfold transformed_indices std_indices robust_indices
  rw [List.mem_append, not_or, h1, h2]

/-- Witness for the amended C6 at the (duplicate-free) fallback order. -/
theorem C6_amended_witness :
    (fallback_feature_order.Nodup ∧
      (∀ f ∈ STD_SCALER_FEATURES, f ∈ fallback_feature_order) ∧
      ∀ f ∈ ROBUST_SCALER_FEATURES, f ∈ fallback_feature_order) ∧
    untransformed_list fallback_feature_order = untransformedSpec fallback_feature_order :=
  ⟨⟨by decide, by decide, by decide⟩,
    C6_amended fallback_feature_order (by decide) (by decide) (by decide)⟩

/-! ## Claim C7 -/

/-- A serialized order line can never equal the `[/order]` marker: it
starts with a decimal digit. -/
theorem digits_append_ne_marker (k : Nat) (s : List Char) :
    natDigits k ++ s ≠ "[/order]".data := by
  intro e
  cases hd : natDigits k with
  | nil => exact natDigits_ne_nil k hd
  | cons c t =>
    rw [hd, List.cons_append] at e
    have hc : c ∈ natDigits k := hd ▸ List.mem_cons_self c t
    have hdig : c.isDigit := natDigits_digit k c hc
    have hhead : c = '[' := by
      have h2 := congrArg (fun l => l.head?) e
      simpa using h2
    rw [hhead] at hdig
    exact absurd hdig (by decide)

theorem natDigits_bne_eq (k : Nat) : ∀ c ∈ natDigits k, (c != '=') = true := by
  intro c hc
  have hd := natDigits_digit k c hc
  rw [bne_iff_ne]
  intro e
  rw [e] at hd
  exact absurd hd (by decide)

/-- Core of the round-trip: the serialized `index=name` lines, followed by
the closing marker, split and parse back to the original names. -/
theorem parse_lines : ∀ (order : List String) (k : Nat),
    (∀ n ∈ order, '\n' ∉ n.data) →
    ((splitLines ((String.join ((order.enumFrom k).map
          (fun p => natToStr p.1 ++ "=" ++ p.2 ++ "\n"))).data
        ++ "[/order]\n".data)).takeWhile (fun l => decide (l ≠ "[/order]".data))).map
      (fun l => String.mk ((l.dropWhile (fun c => c != '=')).drop 1)) = order
  | [], k, _ => by
    have h1 : ("[/order]\n".data : List Char) = "[/order]".data ++ ['\n'] := rfl
    rw [List.enumFrom_nil, List.map_nil, data_join, List.map_nil, List.flatten_nil,
      List.nil_append, h1, splitLines_append_newline _ _ (by decide)]
    rw [List.takeWhile_cons]
    simp
  | nm :: order, k, h => by
    rw [List.enumFrom_cons, List.map_cons, data_join, List.map_cons, List.flatten_cons]
    have hjoin : (((order.enumFrom (k + 1)).map
          (fun p => natToStr p.1 ++ "=" ++ p.2 ++ "\n")).map String.data).flatten
        = ((String.join ((order.enumFrom (k + 1)).map
            (fun p => natToStr p.1 ++ "=" ++ p.2 ++ "\n"))).data : List Char) :=
      (data_join _).symm
    have hdata : ((natToStr k ++ "=" ++ nm ++ "\n").data : List Char)
        = (natDigits k ++ '=' :: nm.data) ++ ['\n'] := by
      simp [natToStr, String.data_append, List.append_assoc]
    rw [hdata, hjoin, List.append_assoc, List.append_assoc, List.singleton_append]
    have hnl : '\n' ∉ natDigits k ++ '=' :: nm.data := by
      intro hm
      rcases List.mem_append.mp hm with h1 | h2
      · exact absurd (natDigits_digit k _ h1) (by decide)
      · rcases List.mem_cons.mp h2 with h3 | h4
        · exact absurd h3 (by decide)
        · exact h nm (List.mem_cons_self _ _) h4
    rw [splitLines_append_newline _ _ hnl, List.takeWhile_cons,
      if_pos (by simpa using digits_append_ne_marker k ('=' :: nm.data)), List.map_cons]
    have hparse : String.mk (((natDigits k ++ '=' :: nm.data).dropWhile
        (fun c => c != '=')).drop 1) = nm := by
      rw [dropWhile_append_of_all _ _ _ (natDigits_bne_eq k), List.dropWhile_cons,
        if_neg (by decide)]
      obtain ⟨l⟩ := nm
      rfl
    rw [hparse]
    have hrest := parse_lines order (k + 1) (fun n hn => h n (List.mem_cons_of_mem _ hn))
    rw [hrest]

/-- **C7** counterexample: the claim fails for a feature order whose name
contains a newline — the writer then emits a line that is not of the form
`index=name`, and no line-oriented parse can recover the original name. -/
theorem C7_counterexample :
    parseOrderBlock (order_block ["a\nb"]) = ["a", ""] ∧
    parseOrderBlock (order_block ["a\nb"]) ≠ ["a\nb"] := by
  refine ⟨by decide, by decide⟩

/-- **C7** amended: for every feature order whose names contain no newline
(the only case in which the emitted block consists of `index=name` lines),
parsing the emitted `[order]` block returns exactly the original feature
order, name by name. -/
theorem C7_roundtrip (order : List String) (h : ∀ n ∈ order, '\n' ∉ n.data) :
    parseOrderBlock (order_block order) = order := by
  unfold parseOrderBlock order_block order_lines
  rw [String.data_append, String.data_append]
  have h1 : ("[order]\n".data : List Char) = "[order]".data ++ ['\n'] := rfl
  rw [List.append_assoc, h1, List.append_assoc, List.singleton_append,
    splitLines_append_newline _ _ (by decide), List.dropWhile_cons,
    if_neg (by simp), List.drop_one, List.tail_cons]
  exact parse_lines order 0 h

/-- Witness for the amended C7 at the fallback order. -/
theorem C7_roundtrip_witness :
    (∀ n ∈ fallback_feature_order, '\n' ∉ n.data) ∧
    parseOrderBlock (order_block fallback_feature_order) = fallback_feature_order :=
  ⟨by decide, C7_roundtrip fallback_feature_order (by decide)⟩

/-! ## Claim C10 -/

/-- **C10**: `apply_feature_transforms` never mutates its input frame. In
the heap model, line 68's `X_scaled = X.copy()` allocates a fresh object at
the end of the heap, and both in-place column assignments write through
that fresh reference only, so the caller's frame reads back unchanged. -/
theorem C10_no_mutation (sqrtA : ℚ → ℚ) (h : Heap) (x : Nat) (hx : x < h.length) :
    ((apply_feature_transforms_heap sqrtA h x).1).getD x ⟨[], []⟩
      = h.getD x ⟨[], []⟩ := by
  have hne : h.length ≠ x := Nat.ne_of_gt hx
  unfold apply_feature_transforms_heap Heap.alloc
  dsimp only
  rw [List.getD_eq_getElem?_getD, List.getD_eq_getElem?_getD,
    List.getElem?_set_ne hne, List.getElem?_set_ne hne,
    List.getElem?_append_left hx]

/-- Witness for C10 on a one-frame heap. -/
theorem C10_no_mutation_witness :
    (0 : Nat) < ([⟨["success"], [[5]]⟩] : Heap).length ∧
    ((apply_feature_transforms_heap (fun q => q) [⟨["success"], [[5]]⟩] 0).1).getD 0 ⟨[], []⟩
      = ([⟨["success"], [[5]]⟩] : Heap).getD 0 ⟨[], []⟩ :=
  ⟨by decide, C10_no_mutation (fun q => q) [⟨["success"], [[5]]⟩] 0 (by decide)⟩

/-! ## Claim C1 -/

/-- Shared helper: overwriting the columns of `names` leaves every column
outside `names` unchanged. -/
theorem colOf_setCols_notMem (d : DataFrame) (names : List String)
    (vals : List (List ℚ)) (f : String) (hwf : d.WF) (hf : f ∈ d.header)
    (hfn : f ∉ names) :
    (setCols d names vals).colOf f = d.colOf f := by
  have hnone : List.indexOf? f names = none :=
    List.indexOf?_eq_none_iff.mpr (fun x hx => by
      rw [beq_iff_eq]
      intro e
      exact hfn (e ▸ hx))
  unfold setCols DataFrame.colOf
  dsimp only
  apply List.ext_getElem?
  intro i
  rw [List.getElem?_map, List.getElem?_map, List.getElem?_map, List.getElem?_enum]
  cases hrow : d.rows[i]? with
  | none => simp
  | some r =>
    simp only [Option.map_some']
    congr 1
    have hr : r.length = d.header.length := hwf r (List.mem_iff_getElem?.mpr ⟨i, hrow⟩)
    have hj : d.header.indexOf f < d.header.length := List.indexOf_lt_length.mpr hf
    have hjr : d.header.indexOf f < r.length := by omega
    have hjz : d.header.indexOf f < (d.header.zip r).length := by
      rw [List.length_zip]
      omega
    rw [List.getD_eq_getElem?_getD, List.getElem?_map, List.getElem?_eq_getElem hjz,
      List.getElem_zip, List.getElem_indexOf hj]
    simp only [Option.map_some', Option.getD_some, hnone]
    rw [List.getD_eq_getElem?_getD, List.getElem?_eq_getElem hjr]
    rfl

set_option maxRecDepth 10000 in
/-- **C1** counterexample: on the feature order resolved from the
declaration below (which lists `latency` before `connect_time`), the
serialized `std_features` indices are `[1, 0, 2, 3, 4, 5, 6]` — the
configuration declaration order, not ascending index order. -/
theorem C1_counterexample :
    parse_feature_order "func getDefaultFeatureOrder() map[int]string \x7b return map[int]string\x7b0: \"latency\", 1: \"connect_time\", 2: \"upload_mb\", 3: \"download_mb\", 4: \"duration_minutes\", 5: \"last_used_seconds\", 6: \"traffic_density\", 7: \"success\", 8: \"failure\"\x7d \x7d"
      = ["latency", "connect_time", "upload_mb", "download_mb", "duration_minutes",
         "last_used_seconds", "traffic_density", "success", "failure"] ∧
    std_indices ["latency", "connect_time", "upload_mb", "download_mb", "duration_minutes",
         "last_used_seconds", "traffic_density", "success", "failure"]
      = [1, 0, 2, 3, 4, 5, 6] ∧
    ¬ List.Pairwise (· ≤ ·) (std_indices ["latency", "connect_time", "upload_mb", "download_mb", "duration_minutes",
         "last_used_seconds", "traffic_density", "success", "failure"]) := by
  refine ⟨by decide, by decide, by decide⟩

/-- **C1** amended: the index lists and the parameter vectors are parallel
and follow the order in which the features are declared in the
configuration lists — the i-th serialized parameter is fitted from the
i-th configured feature's original column; the indices are ascending
within FeatureOrder exactly for orders that keep the configured features in
the configured relative order, as the fallback order does. -/
theorem C1_amended (order : List String) (X : DataFrame) (sqrtA : ℚ → ℚ)
    (hwf : X.WF)
    (hrobh : ∀ f ∈ ROBUST_SCALER_FEATURES, f ∈ X.header)
    (hstdo : List.Pairwise (fun f g => order.indexOf f < order.indexOf g)
      STD_SCALER_FEATURES)
    (hrobo : List.Pairwise (fun f g => order.indexOf f < order.indexOf g)
      ROBUST_SCALER_FEATURES) :
    List.Pairwise (· < ·) (std_indices order) ∧
    List.Pairwise (· < ·) (robust_indices order) ∧
    (apply_feature_transforms sqrtA X).2.1.mean
      = STD_SCALER_FEATURES.map (fun f => colMean (X.colOf f)) ∧
    (apply_feature_transforms sqrtA X).2.2.center
      = ROBUST_SCALER_FEATURES.map (fun f => colMedian (X.colOf f)) := by
  refine ⟨?_, ?_, ?_, ?_⟩
  · unfold std_indices
    exact (List.pairwise_map).mpr hstdo
  · unfold robust_indices
    exact (List.pairwise_map).mpr hrobo
  · unfold apply_feature_transforms fitStandard
    dsimp only
    rw [List.map_map]
    rfl
  · unfold apply_feature_transforms fitRobust
    dsimp only
    rw [List.map_map]
    apply List.map_congr_left
    intro f hf
    have hdisj : ∀ g ∈ ROBUST_SCALER_FEATURES, g ∉ STD_SCALER_FEATURES := by decide
    show colMedian ((setCols X STD_SCALER_FEATURES _).colOf f) = _
    rw [colOf_setCols_notMem X STD_SCALER_FEATURES _ f hwf (hrobh f hf) (hdisj f hf)]

/-- Witness for the amended C1 at the fallback order and a two-row
frame. -/
theorem C1_amended_witness :
    ((⟨["connect_time", "latency", "upload_mb", "download_mb", "duration_minutes",
        "last_used_seconds", "traffic_density", "success", "failure"],
       [[1, 2, 3, 4, 5, 6, 7, 8, 9], [2, 3, 4, 5, 6, 7, 8, 9, 10]]⟩ : DataFrame).WF ∧
      List.Pairwise (fun f g => fallback_feature_order.indexOf f
        < fallback_feature_order.indexOf g) STD_SCALER_FEATURES ∧
      List.Pairwise (fun f g => fallback_feature_order.indexOf f
        < fallback_feature_order.indexOf g) ROBUST_SCALER_FEATURES) ∧
    (List.Pairwise (· < ·) (std_indices fallback_feature_order) ∧
      List.Pairwise (· < ·) (robust_indices fallback_feature_order) ∧
      (apply_feature_transforms (fun q => q)
          ⟨["connect_time", "latency", "upload_mb", "download_mb", "duration_minutes",
            "last_used_seconds", "traffic_density", "success", "failure"],
           [[1, 2, 3, 4, 5, 6, 7, 8, 9], [2, 3, 4, 5, 6, 7, 8, 9, 10]]⟩).2.1.mean
        = STD_SCALER_FEATURES.map (fun f => colMean
            ((⟨["connect_time", "latency", "upload_mb", "download_mb",
                "duration_minutes", "last_used_seconds", "traffic_density", "success",
                "failure"],
              [[1, 2, 3, 4, 5, 6, 7, 8, 9], [2, 3, 4, 5, 6, 7, 8, 9, 10]]⟩ : DataFrame).colOf f)) ∧
      (apply_feature_transforms (fun q => q)
          ⟨["connect_time", "latency", "upload_mb", "download_mb", "duration_minutes",
            "last_used_seconds", "traffic_density", "success", "failure"],
           [[1, 2, 3, 4, 5, 6, 7, 8, 9], [2, 3, 4, 5, 6, 7, 8, 9, 10]]⟩).2.2.center
        = ROBUST_SCALER_FEATURES.map (fun f => colMedian
            ((⟨["connect_time", "latency", "upload_mb", "download_mb",
                "duration_minutes", "last_used_seconds", "traffic_density", "success",
                "failure"],
              [[1, 2, 3, 4, 5, 6, 7, 8, 9], [2, 3, 4, 5, 6, 7, 8, 9, 10]]⟩ : DataFrame).colOf f))) :=
  ⟨⟨by decide, by decide, by decide⟩,
    C1_amended fallback_feature_order
      ⟨["connect_time", "latency", "upload_mb", "download_mb", "duration_minutes",
        "last_used_seconds", "traffic_density", "success", "failure"],
       [[1, 2, 3, 4, 5, 6, 7, 8, 9], [2, 3, 4, 5, 6, 7, 8, 9, 10]]⟩
      (fun q => q) (by decide) (by decide) (by decide) (by decide)⟩

/-! ## Claim C2 -/

theorem notMem_data_append (c : Char) (s t : String) (hs : c ∉ s.data)
    (ht : c ∉ t.data) : c ∉ (s ++ t).data := by
  rw [String.data_append]
  intro h
  rcases List.mem_append.mp h with h | h
  · exact hs h
  · exact ht h

theorem notMem_data_natToStr (c : Char) (hc : ¬ c.isDigit) (n : Nat) :
    c ∉ (natToStr n).data :=
  notMem_natDigits n c hc

theorem notMem_data_joinComma_natToStr (c : Char) (hc : ¬ c.isDigit) (hcc : c ≠ ',')
    (l : List Nat) : c ∉ (joinComma (l.map natToStr)).data :=
  notMem_data_joinComma c hcc _ (fun p hp => by
    obtain ⟨n, hn, he⟩ := List.mem_map.mp hp
    exact he ▸ notMem_data_natToStr c hc n)

theorem notMem_order_lines (c : Char) (hdig : ¬ c.isDigit) (he : c ≠ '=')
    (hn : c ≠ '\n') (order : List String) (ho : ∀ n ∈ order, c ∉ n.data) :
    c ∉ (order_lines order).data := by
  unfold order_lines
  rw [data_join]
  intro hmem
  obtain ⟨l, hl, hcl⟩ := List.mem_flatten.mp hmem
  obtain ⟨s, hs, hse⟩ := List.mem_map.mp hl
  subst hse
  obtain ⟨p, hp, hpe⟩ := List.mem_map.mp hs
  subst hpe
  obtain ⟨i, nm⟩ := p
  have hnm : nm ∈ order :=
    List.mem_iff_getElem?.mpr ⟨i, List.mk_mem_enum_iff_getElem?.mp hp⟩
  rw [String.data_append, String.data_append, String.data_append] at hcl
  rcases List.mem_append.mp hcl with h1 | h2
  · rcases List.mem_append.mp h1 with h3 | h4
    · rcases List.mem_append.mp h3 with h5 | h6
      · exact notMem_data_natToStr c hdig i h5
      · exact he (List.mem_singleton.mp h6)
    · exact ho nm hnm h4
  · exact hn (List.mem_singleton.mp h2)

theorem notMem_untransformed_entry (c : Char) (hdig : ¬ c.isDigit) (hco : c ≠ ':')
    (order : List String) (ho : ∀ n ∈ order, c ∉ n.data) :
    ∀ u ∈ untransformed_list order, c ∉ u.data := by
  intro u hu
  unfold untransformed_list at hu
  obtain ⟨p, hp, hpe⟩ := List.mem_map.mp hu
  subst hpe
  obtain ⟨i, nm⟩ := p
  have hpen : (i, nm) ∈ order.enum := List.mem_of_mem_filter hp
  have hnm : nm ∈ order :=
    List.mem_iff_getElem?.mpr ⟨i, List.mk_mem_enum_iff_getElem?.mp hpen⟩
  intro hmem
  rw [String.data_append, String.data_append] at hmem
  rcases List.mem_append.mp hmem with h1 | h2
  · rcases List.mem_append.mp h1 with h3 | h4
    · exact notMem_data_natToStr c hdig i h3
    · exact hco (List.mem_singleton.mp h4)
  · exact ho nm hnm h2

theorem occurs_eq_zero_of_notMem (c : Char) (p s : List Char) (h : c ∉ s) :
    occurs (c :: p) s = 0 := by
  have h2 := occurs_append_of_notMem c p s [] h
  simpa using h2

theorem occurs_append_bracket (c2 c3 : Char) (p s t : List Char)
    (h23 : c2 ≠ c3) (h3 : c3 ≠ '[') (hs : '[' ∉ s) :
    occurs ('[' :: c2 :: p) (('[' :: c3 :: s) ++ t) = occurs ('[' :: c2 :: p) t := by
  rw [List.cons_append, List.cons_append, occurs_cons2_ne '[' c2 c3 p _ h23,
    ← List.cons_append]
  refine occurs_append_of_notMem '[' (c2 :: p) (c3 :: s) t ?_
  intro hm
  rcases List.mem_cons.mp hm with e | hmem
  · exact h3 e.symm
  · exact hs hmem

set_option maxRecDepth 400000 in
/-- **C2** counterexample: in a concrete run's artifact, the `[order]` and
`[definitions]` blocks each appear exactly once (nested inside
`[transforms]`), not twice as the claim states. -/
theorem C2_counterexample :
    ¬ occurs "[order]\n".data (saved_artifact "MODEL"
        ["success", "failure", "connect_time", "latency", "upload_mb", "download_mb",
         "duration_minutes", "last_used_seconds", "traffic_density"]
        ["1.0", "1.0", "1.0", "1.0", "1.0", "1.0", "1.0"]
        ["1.0", "1.0", "1.0", "1.0", "1.0", "1.0", "1.0"]
        ["1.0", "1.0"] ["1.0", "1.0"]).data = 2 ∧
    occurs "[order]\n".data (saved_artifact "MODEL"
        ["success", "failure", "connect_time", "latency", "upload_mb", "download_mb",
         "duration_minutes", "last_used_seconds", "traffic_density"]
        ["1.0", "1.0", "1.0", "1.0", "1.0", "1.0", "1.0"]
        ["1.0", "1.0", "1.0", "1.0", "1.0", "1.0", "1.0"]
        ["1.0", "1.0"] ["1.0", "1.0"]).data = 1 ∧
    ¬ occurs "[definitions]\n".data (saved_artifact "MODEL"
        ["success", "failure", "connect_time", "latency", "upload_mb", "download_mb",
         "duration_minutes", "last_used_seconds", "traffic_density"]
        ["1.0", "1.0", "1.0", "1.0", "1.0", "1.0", "1.0"]
        ["1.0", "1.0", "1.0", "1.0", "1.0", "1.0", "1.0"]
        ["1.0", "1.0"] ["1.0", "1.0"]).data = 2 ∧
    occurs "[definitions]\n".data (saved_artifact "MODEL"
        ["success", "failure", "connect_time", "latency", "upload_mb", "download_mb",
         "duration_minutes", "last_used_seconds", "traffic_density"]
        ["1.0", "1.0", "1.0", "1.0", "1.0", "1.0", "1.0"]
        ["1.0", "1.0", "1.0", "1.0", "1.0", "1.0", "1.0"]
        ["1.0", "1.0"] ["1.0", "1.0"]).data = 1 := by
  refine ⟨by decide, by decide, by decide, by decide⟩

/-- **C2** amended: for every run that reaches serialization (with the
marker character `[` absent from the model text, the feature names and the
rendered parameters, as is the case in practice), the artifact contains the
`[order]` and `[definitions]` blocks exactly once each, nested inside the
`[transforms]` section — no copy precedes the `[transforms]` header. -/
theorem C2_blocks_once (modelText : String) (order : List String)
    (stdMean stdScale robCenter robScale : List String)
    (hm : '[' ∉ modelText.data)
    (ho : ∀ n ∈ order, '[' ∉ n.data)
    (h1 : ∀ p ∈ stdMean, '[' ∉ p.data)
    (h2 : ∀ p ∈ stdScale, '[' ∉ p.data)
    (h3 : ∀ p ∈ robCenter, '[' ∉ p.data)
    (h4 : ∀ p ∈ robScale, '[' ∉ p.data) :
    occurs "[order]\n".data
      (saved_artifact modelText order stdMean stdScale robCenter robScale).data = 1 ∧
    occurs "[definitions]\n".data
      (saved_artifact modelText order stdMean stdScale robCenter robScale).data = 1 ∧
    occurs "[order]\n".data
      (modelText ++ "\n\nend of trees\n\n[transforms]\n").data = 0 ∧
    occurs "[definitions]\n".data
      (modelText ++ "\n\nend of trees\n\n[transforms]\n").data = 0 := by
  have hJ : '[' ∉ (order_lines order).data :=
    notMem_order_lines '[' (by decide) (by decide) (by decide) order ho
  have hDB : '[' ∉ (definitions_body order stdMean stdScale robCenter robScale).data := by
    unfold definitions_body
    refine notMem_data_append '[' _ _ ?_ (by decide)
    refine notMem_data_append '[' _ _ ?_ (notMem_data_joinComma '[' (by decide) _ h4)
    refine notMem_data_append '[' _ _ ?_ (by decide)
    refine notMem_data_append '[' _ _ ?_ (notMem_data_joinComma '[' (by decide) _ h3)
    refine notMem_data_append '[' _ _ ?_ (by decide)
    refine notMem_data_append '[' _ _ ?_
      (notMem_data_joinComma_natToStr '[' (by decide) (by decide) _)
    refine notMem_data_append '[' _ _ ?_ (by decide)
    refine notMem_data_append '[' _ _ ?_ (by decide)
    refine notMem_data_append '[' _ _ ?_ (notMem_data_joinComma '[' (by decide) _ h2)
    refine notMem_data_append '[' _ _ ?_ (by decide)
    refine notMem_data_append '[' _ _ ?_ (notMem_data_joinComma '[' (by decide) _ h1)
    refine notMem_data_append '[' _ _ ?_ (by decide)
    exact notMem_data_append '[' _ _ (by decide)
      (notMem_data_joinComma_natToStr '[' (by decide) (by decide) _)
  have hUF : '[' ∉ (untransformed_tail order).data := by
    unfold untransformed_tail
    refine notMem_data_append '[' _ _ (notMem_data_append '[' _ _ (by decide) ?_) (by decide)
    exact notMem_data_joinComma '[' (by decide) _
      (notMem_untransformed_entry '[' (by decide) (by decide) order ho)
  have hdecomp : (saved_artifact modelText order stdMean stdScale robCenter robScale).data
      = modelText.data ++ ("\n\nend of trees\n\n".data
        ++ ("[transforms]\n".data ++ ("[order]\n".data ++ ((order_lines order).data
        ++ ("[/order]\n".data ++ ("[definitions]\n".data
        ++ ((definitions_body order stdMean stdScale robCenter robScale).data
        ++ ("[/definitions]\n".data ++ ((untransformed_tail order).data
        ++ "[/transforms]\n".data))))))))) := by
    simp only [saved_artifact, final_transforms_block, order_block, definitions_block,
      String.data_append, List.append_assoc]
  have eTR : ("[transforms]\n".data : List Char) = '[' :: 't' :: "ransforms]\n".data := rfl
  have eORC : ("[/order]\n".data : List Char) = '[' :: '/' :: "order]\n".data := rfl
  have eDFC : ("[/definitions]\n".data : List Char) = '[' :: '/' :: "definitions]\n".data := rfl
  have eTRC : ("[/transforms]\n".data : List Char) = '[' :: '/' :: "transforms]\n".data := rfl
  have eOP : ("[order]\n".data : List Char) = '[' :: 'o' :: "rder]\n".data := rfl
  have eDP : ("[definitions]\n".data : List Char) = '[' :: 'd' :: "efinitions]\n".data := rfl
  have hsent : ("\n\nend of trees\n\n[transforms]\n".data : List Char)
      = "\n\nend of trees\n\n".data ++ "[transforms]\n".data := rfl
  refine ⟨?_, ?_, ?_, ?_⟩
  · rw [hdecomp, eOP, eTR, eORC, eDP, eDFC, eTRC,
      occurs_append_of_notMem '[' ('o' :: "rder]\n".data) modelText.data _ hm,
      occurs_append_of_notMem '[' ('o' :: "rder]\n".data) "\n\nend of trees\n\n".data _
        (by decide),
      occurs_append_bracket 'o' 't' "rder]\n".data "ransforms]\n".data _
        (by decide) (by decide) (by decide),
      occurs_append_self '[' ('o' :: "rder]\n".data) _ (by decide),
      occurs_append_of_notMem '[' ('o' :: "rder]\n".data) (order_lines order).data _ hJ,
      occurs_append_bracket 'o' '/' "rder]\n".data "order]\n".data _
        (by decide) (by decide) (by decide),
      occurs_append_bracket 'o' 'd' "rder]\n".data "efinitions]\n".data _
        (by decide) (by decide) (by decide),
      occurs_append_of_notMem '[' ('o' :: "rder]\n".data)
        (definitions_body order stdMean stdScale robCenter robScale).data _ hDB,
      occurs_append_bracket 'o' '/' "rder]\n".data "definitions]\n".data _
        (by decide) (by decide) (by decide),
      occurs_append_of_notMem '[' ('o' :: "rder]\n".data)
        (untransformed_tail order).data _ hUF,
      occurs_cons2_ne '[' 'o' '/' ("rder]\n".data) ("transforms]\n".data) (by decide),
      occurs_eq_zero_of_notMem '[' ('o' :: "rder]\n".data) _ (by decide)]
  · rw [hdecomp, eDP, eTR, eOP, eORC, eDFC, eTRC,
      occurs_append_of_notMem '[' ('d' :: "efinitions]\n".data) modelText.data _ hm,
      occurs_append_of_notMem '[' ('d' :: "efinitions]\n".data)
        "\n\nend of trees\n\n".data _ (by decide),
      occurs_append_bracket 'd' 't' "efinitions]\n".data "ransforms]\n".data _
        (by decide) (by decide) (by decide),
      occurs_append_bracket 'd' 'o' "efinitions]\n".data "rder]\n".data _
        (by decide) (by decide) (by decide),
      occurs_append_of_notMem '[' ('d' :: "efinitions]\n".data)
        (order_lines order).data _ hJ,
      occurs_append_bracket 'd' '/' "efinitions]\n".data "order]\n".data _
        (by decide) (by decide) (by decide),
      occurs_append_self '[' ('d' :: "efinitions]\n".data) _ (by decide),
      occurs_append_of_notMem '[' ('d' :: "efinitions]\n".data)
        (definitions_body order stdMean stdScale robCenter robScale).data _ hDB,
      occurs_append_bracket 'd' '/' "efinitions]\n".data "definitions]\n".data _
        (by decide) (by decide) (by decide),
      occurs_append_of_notMem '[' ('d' :: "efinitions]\n".data)
        (untransformed_tail order).data _ hUF,
      occurs_cons2_ne '[' 'd' '/' ("efinitions]\n".data) ("transforms]\n".data)
        (by decide),
      occurs_eq_zero_of_notMem '[' ('d' :: "efinitions]\n".data) _ (by decide)]
  · rw [String.data_append, hsent, eOP, eTR,
      occurs_append_of_notMem '[' ('o' :: "rder]\n".data) modelText.data _ hm,
      occurs_append_of_notMem '[' ('o' :: "rder]\n".data) "\n\nend of trees\n\n".data _
        (by decide),
      occurs_cons2_ne '[' 'o' 't' ("rder]\n".data) ("ransforms]\n".data) (by decide),
      occurs_eq_zero_of_notMem '[' ('o' :: "rder]\n".data) _ (by decide)]
  · rw [String.data_append, hsent, eDP, eTR,
      occurs_append_of_notMem '[' ('d' :: "efinitions]\n".data) modelText.data _ hm,
      occurs_append_of_notMem '[' ('d' :: "efinitions]\n".data)
        "\n\nend of trees\n\n".data _ (by decide),
      occurs_cons2_ne '[' 'd' 't' ("efinitions]\n".data) ("ransforms]\n".data)
        (by decide),
      occurs_eq_zero_of_notMem '[' ('d' :: "efinitions]\n".data) _ (by decide)]

/-- Witness for the amended C2 at the fallback order. -/
theorem C2_blocks_once_witness :
    (('[' ∉ "MODEL".data) ∧
      (∀ n ∈ fallback_feature_order, '[' ∉ n.data) ∧
      (∀ p ∈ (["0.1", "0.2"] : List String), '[' ∉ p.data)) ∧
    (occurs "[order]\n".data (saved_artifact "MODEL" fallback_feature_order
        ["0.1", "0.2"] ["0.1", "0.2"] ["0.1", "0.2"] ["0.1", "0.2"]).data = 1 ∧
      occurs "[definitions]\n".data (saved_artifact "MODEL" fallback_feature_order
        ["0.1", "0.2"] ["0.1", "0.2"] ["0.1", "0.2"] ["0.1", "0.2"]).data = 1 ∧
      occurs "[order]\n".data
        ("MODEL" ++ "\n\nend of trees\n\n[transforms]\n").data = 0 ∧
      occurs "[definitions]\n".data
        ("MODEL" ++ "\n\nend of trees\n\n[transforms]\n").data = 0) :=
  ⟨⟨by decide, by decide, by decide⟩,
    C2_blocks_once "MODEL" fallback_feature_order
      ["0.1", "0.2"] ["0.1", "0.2"] ["0.1", "0.2"] ["0.1", "0.2"]
      (by decide) (by decide) (by decide) (by decide) (by decide) (by decide)⟩

end MihomoTrain
